import Mathlib

/-!
Shallow embedding of the outlier-detection and merge pipeline of the
mgimo-foreign-trade repository (src/outlier_detection.py and
src/merge_processed_data.py), together with theorems settling the
specification claims about it.

Numeric data is modelled exactly over `ℚ`; a missing value (pandas `NaN` /
SQL `NULL`) is modelled as `none : Option ℚ`.  The pandas z-score test
`|x - mean| / std > nsd` (with `std = sqrt(sample variance)`) is embedded
square-free: for `var > 0` and `nsd ≥ 0` it is equivalent to
`(x - mean)^2 > nsd^2 * var`, and for `nsd < 0` it always holds.
-/

/-- Sum of a list of rationals (`pandas Series.sum`). -/
def qsum (l : List ℚ) : ℚ := l.sum

/-- Arithmetic mean over the present values (`Series.mean(skipna=True)` after
the callers have dropped missing values). -/
def mean (l : List ℚ) : ℚ := qsum l / l.length

/-- Sample variance with `ddof = 1` (the square of `Series.std(skipna=True)`);
`none` models the `NaN` that pandas returns for fewer than two values. -/
def svar? (l : List ℚ) : Option ℚ :=
  if l.length ≤ 1 then none
  else some (qsum (l.map (fun x => (x - mean l) ^ 2)) / ((l.length : ℚ) - 1))

/-- The test `|d| / sqrt v > nsd` of the source, written without square roots:
for `v > 0` it is equivalent to `d^2 > nsd^2 * v` when `0 ≤ nsd`, and is
always true when `nsd < 0` (an absolute value exceeds any negative bound). -/
def zExceeds (d v nsd : ℚ) : Bool :=
  if nsd < 0 then true else decide (d ^ 2 > nsd ^ 2 * v)

/-- Embedding of `show_outliers(x, nsd, tv)` (src/outlier_detection.py:34-62).
Counts the entries with `|z| > nsd` and value `> tv`; mean and std are taken
over the non-missing entries, and an entry that is missing is never counted
(its z-score is `NaN` in the source, and `NaN` comparisons are false). -/
def show_outliers (x : List (Option ℚ)) (nsd tv : ℚ) : ℕ :=
  if x = [] ∨ x.filterMap id = [] then 0
  else
    match svar? (x.filterMap id) with
    | none => 0
    | some v =>
      if v = 0 then 0
      else (x.filter fun o => match o with
        | some a => zExceeds (a - mean (x.filterMap id)) v nsd && decide (a > tv)
        | none => false).length

/-- The elementwise ratio `x / y.replace(0, NaN)` of `outlier_frac`:
`none` when either side is missing or the denominator is zero. -/
def ratioOf : Option ℚ × Option ℚ → Option ℚ
  | (some a, some b) => if b = 0 then none else some (a / b)
  | _ => none

/-- Embedding of `outlier_frac(x, y, nsd, tv)` (src/outlier_detection.py:65-100).
Counts the entries whose ratio `x/y` has `|z| > nsd` and whose `x` value is
`> tv`; entries with a missing or zero-denominator ratio are never counted. -/
def outlier_frac (x y : List (Option ℚ)) (nsd tv : ℚ) : ℕ :=
  if x = [] ∨ y = [] ∨ x.filterMap id = [] ∨ y.filterMap id = [] then 0
  else if (x.zip y).filterMap ratioOf = [] then 0
  else
    match svar? ((x.zip y).filterMap ratioOf) with
    | none => 0
    | some v =>
      if v = 0 then 0
      else ((x.zip y).filter fun p =>
        match ratioOf p, p.1 with
        | some r, some a =>
          zExceeds (r - mean ((x.zip y).filterMap ratioOf)) v nsd && decide (a > tv)
        | _, _ => false).length

/-- One row of the `unified_trade_data` table as read by the outlier stage
(`SELECT STRANA, TNVED, NAPR, PERIOD, KOL, STOIM, NETTO`). -/
structure TRow where
  STRANA : String
  TNVED : String
  NAPR : String
  PERIOD : ℕ
  KOL : Option ℚ
  STOIM : Option ℚ
  NETTO : Option ℚ
deriving DecidableEq, Repr

/-- The time-series grouping key `(STRANA, TNVED, NAPR)`. -/
def rowKey (r : TRow) : String × String × String := (r.STRANA, r.TNVED, r.NAPR)

/-- Method 1 of `detect_outliers_by_time_series`: `show_outliers` on the
group's `KOL` values after `dropna`. -/
def groupOutliers1 (g : List TRow) (nsd tv : ℚ) : ℕ :=
  if (g.filterMap TRow.KOL).map some = [] then 0
  else show_outliers ((g.filterMap TRow.KOL).map some) nsd tv

/-- Method 2 of `detect_outliers_by_time_series`: `outlier_frac` on
`KOL / STOIM`, restricted to rows where `STOIM` and `KOL` are present and
`STOIM ≠ 0`. -/
def groupOutliers2 (g : List TRow) (nsd tv : ℚ) : ℕ :=
  if g.filter (fun r => decide (r.STOIM ≠ none ∧ r.KOL ≠ none ∧ r.STOIM ≠ some 0)) = [] then 0
  else outlier_frac
    ((g.filter (fun r => decide (r.STOIM ≠ none ∧ r.KOL ≠ none ∧ r.STOIM ≠ some 0))).map TRow.KOL)
    ((g.filter (fun r => decide (r.STOIM ≠ none ∧ r.KOL ≠ none ∧ r.STOIM ≠ some 0))).map TRow.STOIM)
    nsd tv

/-- Method 3 of `detect_outliers_by_time_series`: `outlier_frac` on
`KOL / NETTO`, restricted to rows where `NETTO` and `KOL` are present and
`NETTO ≠ 0`. -/
def groupOutliers3 (g : List TRow) (nsd tv : ℚ) : ℕ :=
  if g.filter (fun r => decide (r.NETTO ≠ none ∧ r.KOL ≠ none ∧ r.NETTO ≠ some 0)) = [] then 0
  else outlier_frac
    ((g.filter (fun r => decide (r.NETTO ≠ none ∧ r.KOL ≠ none ∧ r.NETTO ≠ some 0))).map TRow.KOL)
    ((g.filter (fun r => decide (r.NETTO ≠ none ∧ r.KOL ≠ none ∧ r.NETTO ≠ some 0))).map TRow.NETTO)
    nsd tv

/-- The `require_all_methods=True` gate of `detect_outliers_by_time_series`
(src/outlier_detection.py:198-209), embedded with the same branch structure:
pass when method 1 found at least one outlier, otherwise `continue` unless
all three methods found outliers (a branch that cannot fire). -/
def groupSelected (g : List TRow) (nsd tv : ℚ) : Bool :=
  if 1 ≤ groupOutliers1 g nsd tv then true
  else if ¬(1 ≤ groupOutliers1 g nsd tv ∧ 1 ≤ groupOutliers2 g nsd tv ∧
            1 ≤ groupOutliers3 g nsd tv) then false
  else true

/-- One row of the summary frame returned by `detect_outliers_by_time_series`. -/
structure OutlierRec where
  STRANA : String
  TNVED : String
  NAPR : String
  outliers_1 : ℕ
  outliers_2 : ℕ
  outliers_3 : ℕ
deriving DecidableEq, Repr

/-- The key of a summary row. -/
def recKey (rec : OutlierRec) : String × String × String := (rec.STRANA, rec.TNVED, rec.NAPR)

/-- The distinct grouping keys of a data frame; pandas `groupby` iterates each
key once (in sorted key order; only the set of keys matters here). -/
def keysOf (df : List TRow) : List (String × String × String) := (df.map rowKey).dedup

/-- The `df.sort_values('PERIOD')` step before grouping (a stable sort). -/
def sortByPeriod (df : List TRow) : List TRow :=
  df.mergeSort fun a b => decide (a.PERIOD ≤ b.PERIOD)

/-- The group of rows for one key, in period order. -/
def groupFor (df : List TRow) (k : String × String × String) : List TRow :=
  (sortByPeriod df).filter fun r => decide (rowKey r = k)

/-- Embedding of `detect_outliers_by_time_series(df, nsd, tv,
require_all_methods=True)` (src/outlier_detection.py:130-223): one summary
row per grouping key that passes the consensus gate. -/
def detect_outliers_by_time_series (df : List TRow) (nsd tv : ℚ) : List OutlierRec :=
  (keysOf df).filterMap fun k =>
    let g := groupFor df k
    if g = [] then none
    else if groupSelected g nsd tv then
      some { STRANA := k.1, TNVED := k.2.1, NAPR := k.2.2,
             outliers_1 := groupOutliers1 g nsd tv,
             outliers_2 := groupOutliers2 g nsd tv,
             outliers_3 := groupOutliers3 g nsd tv }
    else none

/-- Per-point method-1 mask recomputed by `replace_outliers_with_nan`
(src/outlier_detection.py:272-280): z-test of the row's `KOL` against the
mean/std of the group's `KOL` values, guarded by `std > 0`. -/
def m1flag (gk : List TRow) (nsd tv : ℚ) (r : TRow) : Bool :=
  match svar? (gk.filterMap TRow.KOL), r.KOL with
  | some v, some a =>
    decide (0 < v) && zExceeds (a - mean (gk.filterMap TRow.KOL)) v nsd && decide (tv < a)
  | _, _ => false

/-- The rows eligible for the `KOL/STOIM` ratio inside one suppression group
(`STOIM` present and nonzero, `KOL` present). -/
def valid2 (gk : List TRow) : List TRow :=
  gk.filter fun t => decide (t.STOIM ≠ none ∧ t.STOIM ≠ some 0 ∧ t.KOL ≠ none)

/-- The rows eligible for the `KOL/NETTO` ratio inside one suppression group. -/
def valid3 (gk : List TRow) : List TRow :=
  gk.filter fun t => decide (t.NETTO ≠ none ∧ t.NETTO ≠ some 0 ∧ t.KOL ≠ none)

/-- The `KOL/STOIM` ratio of one eligible row. -/
def ratio2 (t : TRow) : Option ℚ :=
  match t.KOL, t.STOIM with
  | some a, some b => some (a / b)
  | _, _ => none

/-- The `KOL/NETTO` ratio of one eligible row. -/
def ratio3 (t : TRow) : Option ℚ :=
  match t.KOL, t.NETTO with
  | some a, some b => some (a / b)
  | _, _ => none

/-- Per-point method-2 mask recomputed by `replace_outliers_with_nan`
(src/outlier_detection.py:282-293): z-test of the row's `KOL/STOIM` ratio
against the mean/std of the eligible rows' ratios; rows outside the eligible
set keep the initial `False`. -/
def m2flag (gk : List TRow) (nsd tv : ℚ) (r : TRow) : Bool :=
  match svar? ((valid2 gk).filterMap ratio2) with
  | some v =>
    decide (0 < v) &&
      match r.KOL, r.STOIM with
      | some a, some b =>
        decide (b ≠ 0) &&
          zExceeds (a / b - mean ((valid2 gk).filterMap ratio2)) v nsd && decide (tv < a)
      | _, _ => false
  | none => false

/-- Per-point method-3 mask recomputed by `replace_outliers_with_nan`
(src/outlier_detection.py:295-306), the `KOL/NETTO` analogue of `m2flag`. -/
def m3flag (gk : List TRow) (nsd tv : ℚ) (r : TRow) : Bool :=
  match svar? ((valid3 gk).filterMap ratio3) with
  | some v =>
    decide (0 < v) &&
      match r.KOL, r.NETTO with
      | some a, some b =>
        decide (b ≠ 0) &&
          zExceeds (a / b - mean ((valid3 gk).filterMap ratio3)) v nsd && decide (tv < a)
      | _, _ => false
  | none => false

/-- The final-mask selection of `replace_outliers_with_nan`
(src/outlier_detection.py:308-323): the intersection of the three masks when
all three counts are ≥ 1, mask 1 alone when only method 1 counted outliers,
and the union in the defensive (unreachable) remaining case. -/
def finalMask (gk : List TRow) (o1 o2 o3 : ℕ) (nsd tv : ℚ) (r : TRow) : Bool :=
  if 1 ≤ o1 ∧ 1 ≤ o2 ∧ 1 ≤ o3 then
    m1flag gk nsd tv r && m2flag gk nsd tv r && m3flag gk nsd tv r
  else if 1 ≤ o1 then m1flag gk nsd tv r
  else m1flag gk nsd tv r || m2flag gk nsd tv r || m3flag gk nsd tv r

/-- The rows of one suppression group: key match and `KOL` present
(src/outlier_detection.py:258-263). -/
def groupRows (df : List TRow) (k : String × String × String) : List TRow :=
  df.filter fun r => decide (rowKey r = k) && decide (r.KOL ≠ none)

/-- One pass of the `replace_outliers_with_nan` loop for a single summary row:
recompute the masks over the group and null `KOL` at the selected points. -/
def suppStep (nsd tv : ℚ) (df : List TRow) (rec : OutlierRec) : List TRow :=
  if groupRows df (recKey rec) = [] then df
  else df.map fun r =>
    if rowKey r = recKey rec ∧ r.KOL ≠ none ∧
        finalMask (groupRows df (recKey rec)) rec.outliers_1 rec.outliers_2 rec.outliers_3
          nsd tv r = true
    then { r with KOL := none } else r

/-- Embedding of `replace_outliers_with_nan(df, outlier_series, nsd, tv)`
(src/outlier_detection.py:226-330): sequentially process each summary row. -/
def replace_outliers_with_nan (df : List TRow) (series : List OutlierRec) (nsd tv : ℚ) :
    List TRow :=
  series.foldl (suppStep nsd tv) df

/-- The per-group union mask of the inline suppression in
`process_outliers_in_db` (src/outlier_detection.py:694-725), which ORs the
three recomputed masks instead of selecting by the counts. -/
def processUnionMask (gk : List TRow) (nsd tv : ℚ) (r : TRow) : Bool :=
  m1flag gk nsd tv r || m2flag gk nsd tv r || m3flag gk nsd tv r

/-- Python `str.strip()`: remove leading and trailing whitespace characters
(modelled with `Char.isWhitespace`). -/
def pyStrip (l : List Char) : List Char :=
  ((l.dropWhile Char.isWhitespace).reverse.dropWhile Char.isWhitespace).reverse

/-- The local `pad_right` of `generate_derived_columns`
(src/merge_processed_data.py:181-184): truncate to the first 10 characters,
or pad on the right with `'0'` up to length 10. -/
def pad_right (l : List Char) : List Char :=
  if 10 ≤ l.length then l.take 10 else l ++ List.replicate (10 - l.length) '0'

/-- The TNVED normalization of `generate_derived_columns`
(src/merge_processed_data.py:176-185): `astype(str).str.strip()` followed by
`pad_right` (the string already in hand is the input here). -/
def normalizeTNVED (l : List Char) : List Char := pad_right (pyStrip l)

/-- The normalized code with its four derived level columns. -/
structure DerivedCols where
  TNVED : List Char
  TNVED2 : List Char
  TNVED4 : List Char
  TNVED6 : List Char
  TNVED8 : List Char
deriving DecidableEq, Repr

/-- Embedding of `generate_derived_columns` for one code string
(src/merge_processed_data.py:176-191): normalize, then slice the first
2/4/6/8 characters. -/
def generate_derived_columns (raw : List Char) : DerivedCols :=
  let c := normalizeTNVED raw
  { TNVED := c, TNVED2 := c.take 2, TNVED4 := c.take 4,
    TNVED6 := c.take 6, TNVED8 := c.take 8 }

/-- Modelled from the spec (for comparison with `normalizeTNVED`): "strip
non-digit characters; if the result is empty, treat as zero; pad the result
to exactly 10 characters ... on the right ... on overflow truncate to the
first 10 characters" (spec §4.1). -/
def specNormalize (l : List Char) : List Char :=
  pad_right (if l.filter Char.isDigit = [] then ['0'] else l.filter Char.isDigit)

/-- One row of the merged data frame in `main` of src/merge_processed_data.py
at the unit-standardization stage. -/
structure MRow where
  STRANA : Option String
  NAPR : Option String
  PERIOD : ℕ
  TNVED : String
  KOL : Option ℚ
  STOIM : Option ℚ
  NETTO : Option ℚ
  EDIZM : Option String
  EDIZM_ISO : Option String
  SOURCE : String
deriving DecidableEq, Repr

/-- The Becquerel rule (src/merge_processed_data.py:1281-1292): when the
canonical unit name is `БЕККЕРЕЛЬ`, null `KOL` (the unit fields are kept). -/
def bqStep (r : MRow) : MRow :=
  if r.EDIZM = some "БЕККЕРЕЛЬ" then { r with KOL := none } else r

/-- The kilogram rule (src/merge_processed_data.py:1294-1309): when
`EDIZM_ISO = '166'`, null `KOL`, `EDIZM` and `EDIZM_ISO`. -/
def kgStep (r : MRow) : MRow :=
  if r.EDIZM_ISO = some "166" then
    { r with KOL := none, EDIZM := none, EDIZM_ISO := none }
  else r

/-- Tonne case 1 (src/merge_processed_data.py:1315-1331): unit `'168'` with
`KOL` present and `NETTO` missing or zero — backfill `NETTO := KOL * 1000`
and null the supplementary fields. -/
def tonneConvertStep (r : MRow) : MRow :=
  if r.EDIZM_ISO = some "168" ∧ r.KOL ≠ none ∧ (r.NETTO = none ∨ r.NETTO = some 0) then
    { r with NETTO := r.KOL.map (· * 1000), KOL := none, EDIZM := none, EDIZM_ISO := none }
  else r

/-- Tonne case 2 (src/merge_processed_data.py:1333-1342), with the mask
recomputed after case 1: unit `'168'` with `KOL` present and `NETTO`
present and nonzero — null the supplementary fields as redundant. -/
def tonneRemoveStep (r : MRow) : MRow :=
  if r.EDIZM_ISO = some "168" ∧ r.KOL ≠ none ∧ r.NETTO ≠ none ∧ r.NETTO ≠ some 0 then
    { r with KOL := none, EDIZM := none, EDIZM_ISO := none }
  else r

/-- The unit-duplication step of `main` (kilogram rule, then the two tonne
cases, src/merge_processed_data.py:1294-1344). -/
def unitDuplication (r : MRow) : MRow := tonneRemoveStep (tonneConvertStep (kgStep r))

/-- The whole per-row unit standardization tail of `main`: the Becquerel rule
followed by the unit-duplication step. -/
def unitStandardize (r : MRow) : MRow := unitDuplication (bqStep r)

/-- One source row of the Comtrade `comtrade_data` table, with the fields the
country logic of `load_and_transform_comtrade` acts on; the unit/quantity
column selection upstream of the country mapping is carried in the already
selected `KOL`/`EDIZM` fields. -/
structure CtRow where
  reporterCode : ℕ
  PERIOD : ℕ
  TNVED : String
  NAPR : Option String
  KOL : Option ℚ
  STOIM : Option ℚ
  NETTO : Option ℚ
  EDIZM : Option String
deriving DecidableEq, Repr

/-- Python `str.upper()` (modelled character-wise with `Char.toUpper`; the
entity codes it is applied to are ASCII). -/
def pyUpper (s : String) : String := ⟨s.data.map Char.toUpper⟩

/-- Lookup in the partner-area dict (M49 → ISO2); a Python dict keeps the
last binding for a repeated key. -/
def dictLookup (pm : List (ℕ × String)) (c : ℕ) : Option String :=
  (pm.reverse.find? fun p => p.1 = c).map Prod.snd

/-- The reverse mapping `{v.upper(): k for k, v in partner_mapping.items() if v}`
(src/merge_processed_data.py:786) applied to one ISO2 code. -/
def countryToM49 (pm : List (ℕ × String)) (c : String) : Option ℕ :=
  ((pm.filter fun p => p.2 ≠ "").reverse.find? fun p => pyUpper p.2 = c).map Prod.fst

/-- Transfer of one Comtrade row into the unified schema once its reporter
code has been mapped to an ISO2 `STRANA`; `EDIZM_ISO` starts as `None`
(src/merge_processed_data.py:1027). -/
def toMRow (r : CtRow) (strana : String) : MRow :=
  { STRANA := some strana, NAPR := r.NAPR, PERIOD := r.PERIOD, TNVED := r.TNVED,
    KOL := r.KOL, STOIM := r.STOIM, NETTO := r.NETTO, EDIZM := r.EDIZM,
    EDIZM_ISO := none, SOURCE := "" }

/-- Country logic of `load_and_transform_comtrade`
(src/merge_processed_data.py:784-799, 842-848, 982-1016): exclude the listed
ISO2 codes via their M49 codes in the query, map `reporterCode` to `STRANA`,
drop unmapped rows, and uppercase `STRANA`. -/
def load_and_transform_comtrade (src : List CtRow) (pm : List (ℕ × String))
    (excludeISO : List String) : List MRow :=
  let excUp := excludeISO.map pyUpper
  let excM49 := excUp.filterMap (countryToM49 pm)
  (src.filter fun r => !decide (r.reporterCode ∈ excM49)).filterMap fun r =>
    (dictLookup pm r.reporterCode).map fun s => toMRow r (pyUpper s)

/-- Membership of a row's (possibly missing) `STRANA` in a code list —
pandas `isin`, under which `NaN` is never a member. -/
def stranaIn (r : MRow) (l : List String) : Bool :=
  match r.STRANA with
  | some s => decide (s ∈ l)
  | none => false

/-- The national-country collection of `main`
(src/merge_processed_data.py:1153-1162): walk the national datasets and
append each uppercased `STRANA` value not seen yet. -/
def collectCountries (dfs : List (List MRow)) : List String :=
  dfs.foldl (fun acc df =>
    (df.filterMap MRow.STRANA).foldl
      (fun a s => if pyUpper s ∈ a then a else a ++ [pyUpper s]) acc) []

/-- The national datasets retained by `main`: files whose country stem is in
the exclusion list are skipped (src/merge_processed_data.py:1117-1129), each
kept dataset has `STRANA` uppercased and `SOURCE := 'national'`. -/
def natDataOf (nat : List (String × List MRow)) (excludeArg : List String) :
    List (List MRow) :=
  ((nat.filter fun p => !decide (pyUpper p.1 ∈ excludeArg.map pyUpper)).map fun p =>
    p.2.map fun r => { r with STRANA := r.STRANA.map pyUpper, SOURCE := "national" })

/-- The countries covered by the retained national datasets. -/
def natCountriesOf (nat : List (String × List MRow)) (excludeArg : List String) :
    List String :=
  collectCountries (natDataOf nat excludeArg)

/-- The lexicographic sort key order of
`merged_df.sort_values(['PERIOD', 'STRANA', 'TNVED'])`. -/
def rowLe (a b : MRow) : Bool :=
  if a.PERIOD ≠ b.PERIOD then decide (a.PERIOD < b.PERIOD)
  else if a.STRANA.getD "" ≠ b.STRANA.getD "" then
    decide (a.STRANA.getD "" < b.STRANA.getD "")
  else decide (a.TNVED ≤ b.TNVED)

/-- Embedding of the merge flow of `main` (src/merge_processed_data.py:
1114-1351): load national datasets (minus excluded stems), optionally pull
the Comtrade fallback excluding nationally covered and excluded countries
(with the defensive post-filter), concatenate, drop rows of excluded
countries, sort, drop rows with missing `NAPR`, and standardize units. -/
def merge_processed_main (nat : List (String × List MRow)) (ctSrc : List CtRow)
    (pm : List (ℕ × String)) (excludeArg : List String) (includeComtrade : Bool) :
    List MRow :=
  let excUp := excludeArg.map pyUpper
  let natData := natDataOf nat excludeArg
  let natCountries := natCountriesOf nat excludeArg
  let ctRows :=
    if includeComtrade then
      let ctdf := load_and_transform_comtrade ctSrc pm (natCountries ++ excUp)
      (ctdf.filter fun r => !(stranaIn r natCountries)).map fun r =>
        { r with SOURCE := "comtrade" }
    else []
  let merged := natData.flatten ++ ctRows
  let afterExc := merged.filter fun r => !(stranaIn r excUp)
  let afterNapr := (afterExc.mergeSort rowLe).filter fun r => decide (r.NAPR ≠ none)
  afterNapr.map unitStandardize

/-- One prepared entry of the TNVED reference table
(src/merge_processed_data.py:385-390). -/
structure TnvedRef where
  code : String
  level : ℕ
  name : String
  translated : Bool
deriving DecidableEq, Repr

/-- The deduplication key `(TNVED_CODE, TNVED_LEVEL)`. -/
def refKey (e : TnvedRef) : String × ℕ := (e.code, e.level)

/-- The `sort_values('TRANSLATED')` step (src/merge_processed_data.py:396):
all rows with `TRANSLATED=False` come before all rows with `TRANSLATED=True`
(which sorted permutation pandas picks does not matter for the claims). -/
def sortByTranslated (l : List TnvedRef) : List TnvedRef :=
  (l.filter fun e => !e.translated) ++ (l.filter fun e => e.translated)

/-- `drop_duplicates(subset=['TNVED_CODE', 'TNVED_LEVEL'], keep='first')`:
keep each key's first occurrence, scanning with the set of keys seen. -/
def dropDupKeep1 : List TnvedRef → List (String × ℕ) → List TnvedRef
  | [], _ => []
  | e :: rest, seen =>
    if refKey e ∈ seen then dropDupKeep1 rest seen
    else e :: dropDupKeep1 rest (refKey e :: seen)

/-- The reference-table deduplication of `save_reference_tables`
(src/merge_processed_data.py:392-399): sort official entries first, then
drop duplicate keys keeping the first. -/
def buildTnvedReference (l : List TnvedRef) : List TnvedRef :=
  dropDupKeep1 (sortByTranslated l) []

/-- The 11-point series of the spec scenario: ten values of 100 and one value
of 50,000,000. -/
def c1series : List (Option ℚ) := List.replicate 10 (some 100) ++ [some 50000000]

/-- Concrete suppression example, row at period 1: flagged by the ratio
method 2 (ratio 10 against 1, 1, 1) but not by method 1. -/
def c3r0 : TRow := ⟨"RU", "0101010101", "ИМ", 1, some 10, some 1, some 10⟩

/-- Concrete suppression example, row at period 2. -/
def c3r1 : TRow := ⟨"RU", "0101010101", "ИМ", 2, some 10, some 10, some 10⟩

/-- Concrete suppression example, row at period 3. -/
def c3r2 : TRow := ⟨"RU", "0101010101", "ИМ", 3, some 10, some 10, some 10⟩

/-- Concrete suppression example, row at period 4: flagged by method 1
(`KOL` spike to 100). -/
def c3r3 : TRow := ⟨"RU", "0101010101", "ИМ", 4, some 100, some 100, some 100⟩

/-- The concrete suppression example group (`NETTO = KOL`, so the third
ratio is constant and method 3 scores zero). -/
def c3df : List TRow := [c3r0, c3r1, c3r2, c3r3]

/-- The detection summary row for `c3df` at `nsd = 1, tv = 0`: method 1 and
method 2 each count one outlier, method 3 none. -/
def c3rec : OutlierRec := ⟨"RU", "0101010101", "ИМ", 1, 1, 0⟩

/-- A group with constant `KOL` (zero standard deviation) whose `KOL/STOIM`
ratios 10, 10, 1/100 are not constant. -/
def c8g : List TRow :=
  [⟨"RU", "0202020202", "ИМ", 1, some 10, some 1, none⟩,
   ⟨"RU", "0202020202", "ИМ", 2, some 10, some 1, none⟩,
   ⟨"RU", "0202020202", "ИМ", 3, some 10, some 1000, none⟩]

/-- A merged row whose canonical unit is kilogram (`EDIZM_ISO = '166'`). -/
def c4kgRow : MRow :=
  ⟨some "RU", some "ИМ", 1, "0101010000", some 5, some 2, some 3,
   some "КИЛОГРАММ", some "166", "national"⟩

/-- A merged row in tonnes with `KOL` present and `NETTO` missing. -/
def c4tonneA : MRow :=
  ⟨some "RU", some "ИМ", 1, "0101010000", some 7, some 2, none,
   some "ТОННА", some "168", "national"⟩

/-- A merged row in tonnes with `KOL` present and `NETTO` populated. -/
def c4tonneB : MRow :=
  ⟨some "RU", some "ИМ", 1, "0101010000", some 7, some 2, some 3,
   some "ТОННА", some "168", "national"⟩

/-- A merged row whose canonical unit name is Becquerel. -/
def c10bqRow : MRow :=
  ⟨some "RU", some "ИМ", 1, "0101010000", some 5, some 2, some 3,
   some "БЕККЕРЕЛЬ", some "323", "national"⟩

/-- A national row for the concrete merge run. -/
def c7natRow : MRow :=
  ⟨some "RU", some "ИМ", 1, "0101010000", none, some 1, none, none, none, ""⟩

/-- The national datasets of the concrete merge run: one Russian file. -/
def c7nat : List (String × List MRow) := [("ru", [c7natRow])]

/-- The Comtrade source of the concrete merge run: one Chinese row
(reporter code 156). -/
def c7ct : List CtRow := [⟨156, 1, "0101010000", some "ИМ", none, some 1, none, none⟩]

/-- The partner mapping of the concrete merge run. -/
def c7pm : List (ℕ × String) := [(156, "CN")]

/-- An official and a machine-translated reference entry for the same
`(code, level)` key. -/
def c9entries : List TnvedRef :=
  [⟨"87", 2, "ПЕРЕВОД", true⟩, ⟨"87", 2, "СРЕДСТВА НАЗЕМНОГО ТРАНСПОРТА", false⟩]

/-- An input whose interior non-digit character survives normalization. -/
def c5bad : List Char := ['8', '7', 'a']

/-- The scenario code string "870421". -/
def c5code : List Char := ['8', '7', '0', '4', '2', '1']

/-- An input with interior whitespace on which normalization is not
idempotent: the first pass truncates to `"12345678  "`, whose trailing
blanks the second pass strips and re-pads with zeros. -/
def c6bad : List Char :=
  ['1', '2', '3', '4', '5', '6', '7', '8', ' ', ' ', ' ', '9', '0', 'x']

/-- Reinserting `some` and dropping the missing entries is the identity. -/
theorem filterMap_id_map_some (l : List ℚ) : (l.map some).filterMap id = l := by
  induction l with
  | nil => rfl
  | cons a t ih => simp [ih]

/-- The mean of a constant series is the constant. -/
theorem mean_replicate (n : ℕ) (c : ℚ) (hn : n ≠ 0) : mean (List.replicate n c) = c := by
  unfold mean qsum
  rw [List.sum_replicate, List.length_replicate, nsmul_eq_mul]
  field_simp

/-- A constant series of at least two points has sample variance zero. -/
theorem svar?_replicate (n : ℕ) (c : ℚ) (h : 2 ≤ n) :
    svar? (List.replicate n c) = some 0 := by
  unfold svar?
  rw [List.length_replicate, if_neg (by omega)]
  rw [List.map_replicate, mean_replicate n c (by omega)]
  simp [qsum]

/-- `show_outliers` is zero whenever the sample variance of the present
values is undefined or zero. -/
theorem show_outliers_of_degenerate_var (x : List (Option ℚ)) (nsd tv : ℚ)
    (h : svar? (x.filterMap id) = none ∨ svar? (x.filterMap id) = some 0) :
    show_outliers x nsd tv = 0 := by
  unfold show_outliers
  split
  · rfl
  · rcases h with h | h <;> rw [h] <;> simp

/-- `show_outliers` is zero on an all-missing series. -/
theorem show_outliers_of_all_none (x : List (Option ℚ)) (nsd tv : ℚ)
    (h : ∀ o ∈ x, o = none) : show_outliers x nsd tv = 0 := by
  unfold show_outliers
  rw [if_pos]
  right
  rw [List.filterMap_eq_nil_iff]
  intro a ha
  rw [h a ha]
  rfl

/-- `show_outliers` is zero on a constant series. -/
theorem show_outliers_replicate (n : ℕ) (c : ℚ) (nsd tv : ℚ) :
    show_outliers (List.replicate n (some c)) nsd tv = 0 := by
  have hfm : (List.replicate n (some c)).filterMap id = List.replicate n c := by
    induction n with
    | zero => rfl
    | succ m ih => simp only [List.replicate_succ, List.filterMap_cons, ih]; rfl
  apply show_outliers_of_degenerate_var
  rcases Nat.lt_or_ge n 2 with h | h
  · left
    rw [hfm]
    unfold svar?
    rw [List.length_replicate, if_pos (by omega)]
  · right
    rw [hfm]
    exact svar?_replicate n c h

/-- `outlier_frac` is zero whenever the sample variance of the ratio series
is undefined or zero. -/
theorem outlier_frac_of_degenerate_var (x y : List (Option ℚ)) (nsd tv : ℚ)
    (h : svar? ((x.zip y).filterMap ratioOf) = none ∨
         svar? ((x.zip y).filterMap ratioOf) = some 0) :
    outlier_frac x y nsd tv = 0 := by
  unfold outlier_frac
  split
  · rfl
  · split
    · rfl
    · rcases h with h | h <;> rw [h] <;> simp

/-- Method 1 scores zero when the group's `KOL` variance is undefined or zero. -/
theorem groupOutliers1_of_degenerate_var (g : List TRow) (nsd tv : ℚ)
    (h : svar? (g.filterMap TRow.KOL) = none ∨ svar? (g.filterMap TRow.KOL) = some 0) :
    groupOutliers1 g nsd tv = 0 := by
  unfold groupOutliers1
  split
  · rfl
  · apply show_outliers_of_degenerate_var
    rw [filterMap_id_map_some]
    exact h

/-- All three methods score zero on a group whose `KOL` is entirely missing. -/
theorem groupOutliers_of_all_kol_missing (g : List TRow) (nsd tv : ℚ)
    (h : ∀ r ∈ g, r.KOL = none) :
    groupOutliers1 g nsd tv = 0 ∧ groupOutliers2 g nsd tv = 0 ∧
      groupOutliers3 g nsd tv = 0 := by
  refine ⟨?_, ?_, ?_⟩
  · unfold groupOutliers1
    rw [if_pos]
    rw [List.map_eq_nil_iff, List.filterMap_eq_nil_iff]
    exact h
  · unfold groupOutliers2
    rw [if_pos]
    rw [List.filter_eq_nil_iff]
    intro r hr
    simp [h r hr]
  · unfold groupOutliers3
    rw [if_pos]
    rw [List.filter_eq_nil_iff]
    intro r hr
    simp [h r hr]

/-- C1 (counterexample): on the spec's 11-point series (ten values 100, one
value 50,000,000) with `nsd = 6, tv = 10^6`, `show_outliers` does not count
exactly one outlier. -/
theorem c1_eleven_point_series_not_one_outlier :
    ¬ show_outliers c1series 6 1000000 = 1 := by
  norm_num [show_outliers, c1series, mean, qsum, svar?, zExceeds, List.filterMap,
    List.replicate]

/-- C1 (amended): on the 11-point series of ten values 100 and one value
50,000,000 with `nsd = 6, tv = 10^6`, method 1 counts zero outliers — with a
sample standard deviation (`ddof = 1`), the single spike's z-score is
`10 / sqrt 11 ≈ 3.02`, below 6, so no point is flagged. -/
theorem c1_eleven_point_series_zero_outliers :
    show_outliers c1series 6 1000000 = 0 := by
  norm_num [show_outliers, c1series, mean, qsum, svar?, zExceeds, List.filterMap,
    List.replicate]

/-- C8 (amended): empty and all-missing groups score zero outliers from all
three methods for every `nsd` and `tv`; method 1 scores zero whenever the
group's `KOL` sample variance is undefined or zero (in particular on any
constant series), and the ratio methods score zero whenever the respective
ratio series has undefined or zero sample variance.  (A constant-`KOL`
series may still be flagged by the ratio methods — see the counterexample.) -/
theorem c8_degenerate_groups_zero_outliers :
    (∀ nsd tv : ℚ, groupOutliers1 [] nsd tv = 0 ∧ groupOutliers2 [] nsd tv = 0 ∧
      groupOutliers3 [] nsd tv = 0) ∧
    (∀ (g : List TRow) (nsd tv : ℚ), (∀ r ∈ g, r.KOL = none) →
      groupOutliers1 g nsd tv = 0 ∧ groupOutliers2 g nsd tv = 0 ∧
        groupOutliers3 g nsd tv = 0) ∧
    (∀ (g : List TRow) (nsd tv : ℚ),
      svar? (g.filterMap TRow.KOL) = none ∨ svar? (g.filterMap TRow.KOL) = some 0 →
      groupOutliers1 g nsd tv = 0) ∧
    (∀ (x y : List (Option ℚ)) (nsd tv : ℚ),
      svar? ((x.zip y).filterMap ratioOf) = none ∨
        svar? ((x.zip y).filterMap ratioOf) = some 0 →
      outlier_frac x y nsd tv = 0) ∧
    (∀ (n : ℕ) (c : ℚ) (nsd tv : ℚ), show_outliers (List.replicate n (some c)) nsd tv = 0) := by
  refine ⟨?_, ?_, ?_, ?_, ?_⟩
  · intro nsd tv
    exact ⟨rfl, rfl, rfl⟩
  · intro g nsd tv h
    exact groupOutliers_of_all_kol_missing g nsd tv h
  · intro g nsd tv h
    exact groupOutliers1_of_degenerate_var g nsd tv h
  · intro x y nsd tv h
    exact outlier_frac_of_degenerate_var x y nsd tv h
  · intro n c nsd tv
    exact show_outliers_replicate n c nsd tv

/-- Witness for `c8_degenerate_groups_zero_outliers` at a concrete
all-missing one-row group and a concrete constant series. -/
theorem c8_degenerate_groups_zero_outliers_witness :
    groupOutliers2 [(⟨"RU", "0101010101", "ИМ", 1, none, some 1, none⟩ : TRow)] 6 1000000 = 0 ∧
    show_outliers (List.replicate 5 (some (100 : ℚ))) 6 1000000 = 0 := by
  refine ⟨?_, ?_⟩
  · exact (c8_degenerate_groups_zero_outliers.2.1 _ 6 1000000 (by decide)).2.1
  · exact c8_degenerate_groups_zero_outliers.2.2.2.2 5 100 6 1000000

/-- C8 (counterexample): the group `c8g` has constant `KOL` (zero sample
variance), yet the value-ratio method (method 2) counts one outlier at
`nsd = 1, tv = 5`, so a zero-`KOL`-variance group does not score zero from
all three methods for every choice of `nsd` and `tv`. -/
theorem c8_constant_kol_ratio_method_flags :
    c8g.map TRow.KOL = [some 10, some 10, some 10] ∧
      svar? (c8g.filterMap TRow.KOL) = some 0 ∧
      groupOutliers2 c8g 1 5 = 1 := by
  refine ⟨by decide, ?_, ?_⟩
  · norm_num [c8g, svar?, mean, qsum, List.filterMap]
  · norm_num [c8g, groupOutliers2, outlier_frac, ratioOf, svar?, mean, qsum, zExceeds,
      List.filterMap_cons, List.filter_cons, List.zip, List.zipWith,
      Option.some_ne_none, Option.some.injEq, List.cons_ne_nil]

/-- Membership in a key's group is membership in the frame with that key. -/
theorem mem_groupFor_iff (df : List TRow) (k : String × String × String) (r : TRow) :
    r ∈ groupFor df k ↔ r ∈ df ∧ rowKey r = k := by
  unfold groupFor sortByPeriod
  rw [List.mem_filter, (List.mergeSort_perm df _).mem_iff]
  simp

/-- A key's group is nonempty exactly when some row of the frame has the key. -/
theorem groupFor_ne_nil_iff (df : List TRow) (k : String × String × String) :
    groupFor df k ≠ [] ↔ ∃ r ∈ df, rowKey r = k := by
  rw [ne_eq, List.eq_nil_iff_forall_not_mem]
  push_neg
  constructor
  · rintro ⟨r, hr⟩
    exact ⟨r, (mem_groupFor_iff df k r).mp hr⟩
  · rintro ⟨r, hr, hk⟩
    exact ⟨r, (mem_groupFor_iff df k r).mpr ⟨hr, hk⟩⟩

/-- The consensus gate holds exactly when method 1 counted an outlier or all
three methods did. -/
theorem groupSelected_iff (g : List TRow) (nsd tv : ℚ) :
    groupSelected g nsd tv = true ↔
      (1 ≤ groupOutliers1 g nsd tv ∨
        (1 ≤ groupOutliers1 g nsd tv ∧ 1 ≤ groupOutliers2 g nsd tv ∧
          1 ≤ groupOutliers3 g nsd tv)) := by
  unfold groupSelected
  by_cases h1 : 1 ≤ groupOutliers1 g nsd tv
  · simp [h1]
  · by_cases h23 : 1 ≤ groupOutliers1 g nsd tv ∧ 1 ≤ groupOutliers2 g nsd tv ∧
        1 ≤ groupOutliers3 g nsd tv
    · exact absurd h23.1 h1
    · simp [h1, h23]

/-- C2: for every data frame and every `nsd`, `tv`, a `(STRANA, TNVED, NAPR)`
key appears in the result of `detect_outliers_by_time_series` with
`require_all_methods=True` exactly when the key occurs in the frame and
method 1 flags at least one point of its group, or all three methods each
flag at least one point of its group. -/
theorem c2_detect_selects_iff_method1_or_all_three (df : List TRow) (nsd tv : ℚ)
    (k : String × String × String) :
    (∃ rec ∈ detect_outliers_by_time_series df nsd tv, recKey rec = k) ↔
      ((∃ r ∈ df, rowKey r = k) ∧
        (1 ≤ groupOutliers1 (groupFor df k) nsd tv ∨
          (1 ≤ groupOutliers1 (groupFor df k) nsd tv ∧
            1 ≤ groupOutliers2 (groupFor df k) nsd tv ∧
            1 ≤ groupOutliers3 (groupFor df k) nsd tv))) := by
  constructor
  · rintro ⟨rec, hrec, hkey⟩
    unfold detect_outliers_by_time_series at hrec
    rw [List.mem_filterMap] at hrec
    obtain ⟨k', _hk', hf⟩ := hrec
    dsimp only at hf
    by_cases hg : groupFor df k' = []
    · rw [if_pos hg] at hf
      exact absurd hf (by simp)
    · rw [if_neg hg] at hf
      by_cases hsel : groupSelected (groupFor df k') nsd tv = true
      · rw [if_pos hsel] at hf
        have hrk : recKey rec = k' := by
          cases hf.symm
          rfl
        have hkk : k' = k := by rw [← hrk, hkey]
        subst hkk
        refine ⟨(groupFor_ne_nil_iff df k').mp hg, ?_⟩
        exact (groupSelected_iff _ nsd tv).mp hsel
      · rw [if_neg hsel] at hf
        exact absurd hf (by simp)
  · rintro ⟨⟨r, hr, hrk⟩, hsel⟩
    have hkmem : k ∈ keysOf df := by
      unfold keysOf
      rw [List.mem_dedup, List.mem_map]
      exact ⟨r, hr, hrk⟩
    have hg : groupFor df k ≠ [] := (groupFor_ne_nil_iff df k).mpr ⟨r, hr, hrk⟩
    have hselB : groupSelected (groupFor df k) nsd tv = true :=
      (groupSelected_iff _ nsd tv).mpr hsel
    refine ⟨{ STRANA := k.1, TNVED := k.2.1, NAPR := k.2.2,
              outliers_1 := groupOutliers1 (groupFor df k) nsd tv,
              outliers_2 := groupOutliers2 (groupFor df k) nsd tv,
              outliers_3 := groupOutliers3 (groupFor df k) nsd tv }, ?_, rfl⟩
    unfold detect_outliers_by_time_series
    rw [List.mem_filterMap]
    refine ⟨k, hkmem, ?_⟩
    dsimp only
    rw [if_neg hg, if_pos hselB]

/-- C3 (amended): for a selected key (method 1 counted at least one outlier),
one suppression pass of `replace_outliers_with_nan` recomputes the three
per-point masks over the group's non-missing-`KOL` rows and nulls `KOL`
exactly at the points of the intersection of the three masks when all three
methods counted outliers, and exactly at the points of mask 1 alone
otherwise; no other row and no other field is modified.  (The inline
suppression of `process_outliers_in_db` instead always nulls the union
`processUnionMask` of the three masks.) -/
theorem c3_suppression_mask1_or_intersection (df : List TRow) (rec : OutlierRec)
    (nsd tv : ℚ) (hsel : 1 ≤ rec.outliers_1) :
    suppStep nsd tv df rec = df.map (fun r =>
      if rowKey r = recKey rec ∧ r.KOL ≠ none ∧
          (if 1 ≤ rec.outliers_2 ∧ 1 ≤ rec.outliers_3 then
            m1flag (groupRows df (recKey rec)) nsd tv r &&
            m2flag (groupRows df (recKey rec)) nsd tv r &&
            m3flag (groupRows df (recKey rec)) nsd tv r
          else m1flag (groupRows df (recKey rec)) nsd tv r) = true
      then { r with KOL := none } else r) := by
  unfold suppStep
  by_cases hgk : groupRows df (recKey rec) = []
  · rw [if_pos hgk]
    have h0 : ∀ r ∈ df, (if rowKey r = recKey rec ∧ r.KOL ≠ none ∧
        (if 1 ≤ rec.outliers_2 ∧ 1 ≤ rec.outliers_3 then
          m1flag (groupRows df (recKey rec)) nsd tv r &&
          m2flag (groupRows df (recKey rec)) nsd tv r &&
          m3flag (groupRows df (recKey rec)) nsd tv r
        else m1flag (groupRows df (recKey rec)) nsd tv r) = true
        then { r with KOL := none } else r) = id r := by
      intro r hr
      simp only [id]
      rw [if_neg]
      intro hc
      obtain ⟨hk, hkol, -⟩ := hc
      have hmem : r ∈ groupRows df (recKey rec) := by
        unfold groupRows
        rw [List.mem_filter]
        exact ⟨hr, by simp [hk, hkol]⟩
      rw [hgk] at hmem
      exact absurd hmem (List.not_mem_nil r)
    rw [List.map_congr_left h0, List.map_id]
  · rw [if_neg hgk]
    apply List.map_congr_left
    intro r _
    have hmask : finalMask (groupRows df (recKey rec)) rec.outliers_1 rec.outliers_2
        rec.outliers_3 nsd tv r =
        (if 1 ≤ rec.outliers_2 ∧ 1 ≤ rec.outliers_3 then
          m1flag (groupRows df (recKey rec)) nsd tv r &&
          m2flag (groupRows df (recKey rec)) nsd tv r &&
          m3flag (groupRows df (recKey rec)) nsd tv r
        else m1flag (groupRows df (recKey rec)) nsd tv r) := by
      unfold finalMask
      by_cases h23 : 1 ≤ rec.outliers_2 ∧ 1 ≤ rec.outliers_3
      · rw [if_pos ⟨hsel, h23.1, h23.2⟩, if_pos h23]
      · rw [if_neg (fun hc => h23 ⟨hc.2.1, hc.2.2⟩), if_pos hsel, if_neg h23]
    rw [hmask]

/-- Witness for `c3_suppression_mask1_or_intersection` at the concrete group
`c3df` with its detection summary `c3rec` and `nsd = 1, tv = 0`. -/
theorem c3_suppression_mask1_or_intersection_witness :
    1 ≤ c3rec.outliers_1 ∧
      suppStep 1 0 c3df c3rec = c3df.map (fun r =>
        if rowKey r = recKey c3rec ∧ r.KOL ≠ none ∧
            (if 1 ≤ c3rec.outliers_2 ∧ 1 ≤ c3rec.outliers_3 then
              m1flag (groupRows c3df (recKey c3rec)) 1 0 r &&
              m2flag (groupRows c3df (recKey c3rec)) 1 0 r &&
              m3flag (groupRows c3df (recKey c3rec)) 1 0 r
            else m1flag (groupRows c3df (recKey c3rec)) 1 0 r) = true
        then { r with KOL := none } else r) :=
  ⟨by decide, c3_suppression_mask1_or_intersection c3df c3rec 1 0 (by decide)⟩

/-- C3 (counterexample): on the group `c3df` at `nsd = 1, tv = 0` the
detection counts are `(1, 1, 0)` — method 1 fired, not all three — and the
first row is flagged by recomputed mask 2 (so by at least one of the three
masks), yet the suppression pass leaves its `KOL` value `10` untouched:
suppression does not null every point flagged by at least one mask. -/
theorem c3_suppression_not_union_of_masks :
    groupOutliers1 c3df 1 0 = 1 ∧ groupOutliers2 c3df 1 0 = 1 ∧
      groupOutliers3 c3df 1 0 = 0 ∧
      m2flag (groupRows c3df (recKey c3rec)) 1 0 c3r0 = true ∧
      (suppStep 1 0 c3df c3rec).head?.map TRow.KOL = some (some 10) := by
  refine ⟨?_, ?_, ?_, ?_, ?_⟩
  · norm_num [c3df, c3r0, c3r1, c3r2, c3r3, groupOutliers1, show_outliers, svar?, mean,
      qsum, zExceeds, List.filterMap_cons, List.filter_cons, Option.some_ne_none,
      Option.some.injEq, List.cons_ne_nil]
  · norm_num [c3df, c3r0, c3r1, c3r2, c3r3, groupOutliers2, outlier_frac, ratioOf, svar?,
      mean, qsum, zExceeds, List.filterMap_cons, List.filter_cons, List.zip, List.zipWith,
      Option.some_ne_none, Option.some.injEq, List.cons_ne_nil]
  · norm_num [c3df, c3r0, c3r1, c3r2, c3r3, groupOutliers3, outlier_frac, ratioOf, svar?,
      mean, qsum, zExceeds, List.filterMap_cons, List.filter_cons, List.zip, List.zipWith,
      Option.some_ne_none, Option.some.injEq, List.cons_ne_nil]
  · norm_num [c3df, c3r0, c3r1, c3r2, c3r3, c3rec, m2flag, valid2, ratio2, groupRows,
      rowKey, recKey, svar?, mean, qsum, zExceeds, List.filterMap_cons, List.filter_cons,
      Option.some_ne_none, Option.some.injEq, List.cons_ne_nil]
  · norm_num [c3df, c3r0, c3r1, c3r2, c3r3, c3rec, suppStep, groupRows, finalMask, m1flag,
      m2flag, m3flag, valid2, valid3, ratio2, ratio3, rowKey, recKey, svar?, mean, qsum,
      zExceeds, List.filterMap_cons, List.filter_cons, Option.some_ne_none,
      Option.some.injEq, List.cons_ne_nil]

/-- A whitespace character is not a digit. -/
theorem ws_not_digit (c : Char) (h : c.isWhitespace = true) : c.isDigit = false := by
  simp only [Char.isWhitespace, Bool.or_eq_true, decide_eq_true_eq] at h
  rcases h with ((h | h) | h) | h <;> subst h <;> decide

/-- Right-padding always produces exactly 10 characters. -/
theorem length_pad_right (l : List Char) : (pad_right l).length = 10 := by
  unfold pad_right
  split
  · simp only [List.length_take]
    omega
  · simp only [List.length_append, List.length_replicate]
    omega

/-- Every character of the padded code comes from the input or is `'0'`. -/
theorem mem_pad_right (l : List Char) (c : Char) (h : c ∈ pad_right l) :
    c ∈ l ∨ c = '0' := by
  unfold pad_right at h
  split at h
  · exact Or.inl (List.take_subset _ _ h)
  · rcases List.mem_append.mp h with h | h
    · exact Or.inl h
    · exact Or.inr (List.eq_of_mem_replicate h)

/-- `dropWhile` is the identity when no element satisfies the test. -/
theorem dropWhile_of_no_sat (p : Char → Bool) (l : List Char)
    (h : ∀ c ∈ l, p c = false) : l.dropWhile p = l := by
  cases l with
  | nil => rfl
  | cons a t =>
    rw [List.dropWhile_cons, h a (List.mem_cons_self a t)]
    simp

/-- Stripping is the identity on a list without whitespace. -/
theorem pyStrip_of_no_ws (l : List Char) (h : ∀ c ∈ l, c.isWhitespace = false) :
    pyStrip l = l := by
  unfold pyStrip
  rw [dropWhile_of_no_sat _ _ h]
  rw [dropWhile_of_no_sat _ _ (fun c hc => h c (List.mem_reverse.mp hc))]
  exact List.reverse_reverse l

/-- Right-padding is the identity on a 10-character list. -/
theorem pad_right_of_len10 (l : List Char) (h : l.length = 10) : pad_right l = l := by
  unfold pad_right
  rw [if_pos (le_of_eq h.symm), ← h]
  exact List.take_length l

/-- When the stripped input is all digits, filtering the digits of the input
gives exactly the stripped input. -/
theorem filter_digit_eq_pyStrip (l : List Char)
    (h : (pyStrip l).all Char.isDigit = true) :
    l.filter Char.isDigit = pyStrip l := by
  have h2 : (l.dropWhile Char.isWhitespace).reverse =
      (l.dropWhile Char.isWhitespace).reverse.takeWhile Char.isWhitespace ++
        (l.dropWhile Char.isWhitespace).reverse.dropWhile Char.isWhitespace :=
    (List.takeWhile_append_dropWhile _ _).symm
  have hd2 : l.dropWhile Char.isWhitespace =
      ((l.dropWhile Char.isWhitespace).reverse.dropWhile Char.isWhitespace).reverse ++
        ((l.dropWhile Char.isWhitespace).reverse.takeWhile Char.isWhitespace).reverse := by
    calc l.dropWhile Char.isWhitespace
        = (l.dropWhile Char.isWhitespace).reverse.reverse := (List.reverse_reverse _).symm
      _ = ((l.dropWhile Char.isWhitespace).reverse.takeWhile Char.isWhitespace ++
            (l.dropWhile Char.isWhitespace).reverse.dropWhile Char.isWhitespace).reverse := by
          rw [← h2]
      _ = _ := List.reverse_append _ _
  have hps : pyStrip l =
      ((l.dropWhile Char.isWhitespace).reverse.dropWhile Char.isWhitespace).reverse := rfl
  conv_lhs => rw [← List.takeWhile_append_dropWhile Char.isWhitespace l]
  rw [List.filter_append]
  have hft : (l.takeWhile Char.isWhitespace).filter Char.isDigit = [] := by
    rw [List.filter_eq_nil_iff]
    intro c hc
    simp [ws_not_digit c (List.mem_takeWhile_imp hc)]
  rw [hft, List.nil_append]
  conv_lhs => rw [hd2]
  rw [List.filter_append]
  have hfw : (((l.dropWhile Char.isWhitespace).reverse.takeWhile
      Char.isWhitespace).reverse).filter Char.isDigit = [] := by
    rw [List.filter_eq_nil_iff]
    intro c hc
    simp [ws_not_digit c (List.mem_takeWhile_imp (List.mem_reverse.mp hc))]
  rw [hfw, List.append_nil, ← hps]
  refine List.filter_eq_self.mpr ?_
  intro c hc
  exact List.all_eq_true.mp h c hc

/-- C5 (amended): normalization strips surrounding whitespace (interior
non-digit characters are preserved, not stripped), right-pads with `'0'` to
exactly 10 characters and truncates to the first 10 on overflow; on every
input whose stripped form consists only of digits this coincides with the
spec's strip-non-digits contract, and the scenario holds: `"870421"`
normalizes to `"8704210000"` with level prefixes `"87"`, `"8704"`,
`"870421"`. -/
theorem c5_normalize_strip_pad_truncate :
    (∀ l : List Char, (pyStrip l).all Char.isDigit = true →
      normalizeTNVED l = specNormalize l) ∧
    normalizeTNVED c5code = ['8', '7', '0', '4', '2', '1', '0', '0', '0', '0'] ∧
    (generate_derived_columns c5code).TNVED2 = ['8', '7'] ∧
    (generate_derived_columns c5code).TNVED4 = ['8', '7', '0', '4'] ∧
    (generate_derived_columns c5code).TNVED6 = ['8', '7', '0', '4', '2', '1'] := by
  refine ⟨?_, by decide, by decide, by decide, by decide⟩
  intro l h
  unfold normalizeTNVED specNormalize
  rw [filter_digit_eq_pyStrip l h]
  by_cases h0 : pyStrip l = []
  · rw [h0, if_pos rfl]
    decide
  · rw [if_neg h0]

/-- Witness for `c5_normalize_strip_pad_truncate` at the all-digit input
`"870421"`. -/
theorem c5_normalize_strip_pad_truncate_witness :
    (pyStrip c5code).all Char.isDigit = true ∧
      normalizeTNVED c5code = specNormalize c5code :=
  ⟨by decide, c5_normalize_strip_pad_truncate.1 c5code (by decide)⟩

/-- C5 (counterexample): the input `"87a"` keeps its interior non-digit
character — the code strips only surrounding whitespace, not all non-digit
characters as the claim states. -/
theorem c5_normalize_keeps_nondigits : normalizeTNVED c5bad ≠ specNormalize c5bad := by
  decide

/-- C6 (amended): normalization always yields exactly 10 characters and the
derived level columns are exactly the 2/4/6/8-character heads of the
normalized code; idempotence `normalize (normalize x) = normalize x` holds
for every input whose stripped form contains no whitespace (in particular
all digit strings), but not in general — see the counterexample. -/
theorem c6_normalize_width_idempotence_levels :
    (∀ l : List Char, (normalizeTNVED l).length = 10) ∧
    (∀ raw : List Char,
      (generate_derived_columns raw).TNVED2 = (generate_derived_columns raw).TNVED.take 2 ∧
      (generate_derived_columns raw).TNVED4 = (generate_derived_columns raw).TNVED.take 4 ∧
      (generate_derived_columns raw).TNVED6 = (generate_derived_columns raw).TNVED.take 6 ∧
      (generate_derived_columns raw).TNVED8 = (generate_derived_columns raw).TNVED.take 8) ∧
    (∀ l : List Char, (∀ c ∈ pyStrip l, c.isWhitespace = false) →
      normalizeTNVED (normalizeTNVED l) = normalizeTNVED l) := by
  refine ⟨?_, ?_, ?_⟩
  · intro l
    unfold normalizeTNVED
    exact length_pad_right _
  · intro raw
    exact ⟨rfl, rfl, rfl, rfl⟩
  · intro l h
    have hnws : ∀ c ∈ pad_right (pyStrip l), c.isWhitespace = false := by
      intro c hc
      rcases mem_pad_right _ c hc with h1 | h1
      · exact h c h1
      · rw [h1]
        decide
    show normalizeTNVED (pad_right (pyStrip l)) = pad_right (pyStrip l)
    unfold normalizeTNVED
    rw [pyStrip_of_no_ws _ hnws]
    exact pad_right_of_len10 _ (length_pad_right _)

/-- Witness for `c6_normalize_width_idempotence_levels` at the whitespace-free
input `"870421"`. -/
theorem c6_normalize_width_idempotence_levels_witness :
    normalizeTNVED (normalizeTNVED c5code) = normalizeTNVED c5code :=
  c6_normalize_width_idempotence_levels.2.2 c5code (by decide)

/-- C6 (counterexample): on the input `"12345678   90x"` normalization is not
idempotent — the first pass truncates to `"12345678  "`, whose trailing
blanks the second pass strips before padding with zeros again. -/
theorem c6_normalize_not_idempotent :
    normalizeTNVED (normalizeTNVED c6bad) ≠ normalizeTNVED c6bad := by decide

/-- The Becquerel rule does not touch the unit fields. -/
theorem bqStep_edizm (r : MRow) :
    (bqStep r).EDIZM = r.EDIZM ∧ (bqStep r).EDIZM_ISO = r.EDIZM_ISO := by
  unfold bqStep
  split <;> exact ⟨rfl, rfl⟩

/-- No step re-creates a missing `KOL`. -/
theorem kol_none_preserved (r : MRow) (h : r.KOL = none) :
    (kgStep r).KOL = none ∧ (tonneConvertStep r).KOL = none ∧
      (tonneRemoveStep r).KOL = none := by
  refine ⟨?_, ?_, ?_⟩
  · unfold kgStep
    split <;> simp [h]
  · unfold tonneConvertStep
    rw [if_neg fun hc => hc.2.1 h]
    exact h
  · unfold tonneRemoveStep
    rw [if_neg fun hc => hc.2.1 h]
    exact h

/-- After the kilogram rule the unit code is cleared or was not kilogram. -/
theorem kgStep_iso (r : MRow) :
    (kgStep r).EDIZM_ISO = none ∨
      ((kgStep r) = r ∧ r.EDIZM_ISO ≠ some "166") := by
  unfold kgStep
  by_cases h : r.EDIZM_ISO = some "166"
  · rw [if_pos h]
    exact Or.inl rfl
  · rw [if_neg h]
    exact Or.inr ⟨rfl, h⟩

/-- Tonne case 1 either clears the unit fields or leaves the row unchanged. -/
theorem tonneConvertStep_cases (r : MRow) :
    ((tonneConvertStep r).EDIZM = none ∧ (tonneConvertStep r).EDIZM_ISO = none) ∨
      tonneConvertStep r = r := by
  unfold tonneConvertStep
  split
  · exact Or.inl ⟨rfl, rfl⟩
  · exact Or.inr rfl

/-- Tonne case 2 either clears the unit fields or leaves the row unchanged. -/
theorem tonneRemoveStep_cases (r : MRow) :
    ((tonneRemoveStep r).EDIZM = none ∧ (tonneRemoveStep r).EDIZM_ISO = none) ∨
      tonneRemoveStep r = r := by
  unfold tonneRemoveStep
  split
  · exact Or.inl ⟨rfl, rfl⟩
  · exact Or.inr rfl

/-- The unit-duplication step never leaves the kilogram code `'166'` behind. -/
theorem unitDuplication_iso_ne_kg (r : MRow) :
    (unitDuplication r).EDIZM_ISO ≠ some "166" := by
  unfold unitDuplication
  rcases tonneRemoveStep_cases (tonneConvertStep (kgStep r)) with h3 | h3
  · rw [h3.2]
    exact Option.noConfusion
  · rw [h3]
    rcases tonneConvertStep_cases (kgStep r) with h2 | h2
    · rw [h2.2]
      exact Option.noConfusion
    · rw [h2]
      rcases kgStep_iso r with h1 | h1
      · rw [h1]
        exact Option.noConfusion
      · rw [h1.1]
        exact h1.2

/-- The kilogram branch of the unit-duplication step: all three supplementary
fields are cleared and the tonne cases do not fire afterwards. -/
theorem unitDuplication_kg (r : MRow) (h : r.EDIZM_ISO = some "166") :
    (unitDuplication r).KOL = none ∧ (unitDuplication r).EDIZM = none ∧
      (unitDuplication r).EDIZM_ISO = none := by
  unfold unitDuplication kgStep
  rw [if_pos h]
  unfold tonneConvertStep
  rw [if_neg (by rintro ⟨hc, -⟩; exact Option.noConfusion hc)]
  unfold tonneRemoveStep
  rw [if_neg (by rintro ⟨hc, -⟩; exact Option.noConfusion hc)]
  exact ⟨rfl, rfl, rfl⟩

/-- The tonne branches of the unit-duplication step. -/
theorem unitDuplication_tonne (r : MRow) (k : ℚ) (hiso : r.EDIZM_ISO = some "168")
    (hkol : r.KOL = some k) :
    ((r.NETTO = none ∨ r.NETTO = some 0) →
      unitDuplication r =
        { r with NETTO := some (k * 1000), KOL := none, EDIZM := none,
                 EDIZM_ISO := none }) ∧
    (∀ n : ℚ, r.NETTO = some n → n ≠ 0 →
      unitDuplication r = { r with KOL := none, EDIZM := none, EDIZM_ISO := none }) := by
  have hkg : kgStep r = r := by
    unfold kgStep
    rw [if_neg (by rw [hiso]; decide)]
  constructor
  · intro hnet
    unfold unitDuplication
    rw [hkg]
    unfold tonneConvertStep
    rw [if_pos ⟨hiso, by rw [hkol]; exact Option.noConfusion, hnet⟩]
    unfold tonneRemoveStep
    rw [if_neg (by rintro ⟨hc, -⟩; exact Option.noConfusion hc)]
    rw [hkol]
    rfl
  · intro n hn hn0
    unfold unitDuplication
    rw [hkg]
    unfold tonneConvertStep
    rw [if_neg (by
      rintro ⟨-, -, h | h⟩ <;> rw [hn] at h
      · exact Option.noConfusion h
      · exact hn0 (Option.some.inj h))]
    unfold tonneRemoveStep
    rw [if_pos ⟨hiso, by rw [hkol]; exact Option.noConfusion,
      by rw [hn]; exact Option.noConfusion,
      by rw [hn]; intro hc; exact hn0 (Option.some.inj hc)⟩]

/-- The kilogram rule either clears the unit fields or leaves the row
unchanged. -/
theorem kgStep_cases (r : MRow) :
    ((kgStep r).EDIZM = none ∧ (kgStep r).EDIZM_ISO = none) ∨ kgStep r = r := by
  unfold kgStep
  split
  · exact Or.inl ⟨rfl, rfl⟩
  · exact Or.inr rfl

/-- The unit-duplication step never re-creates a missing `KOL`. -/
theorem unitDuplication_kol_none (r : MRow) (h : r.KOL = none) :
    (unitDuplication r).KOL = none := by
  unfold unitDuplication
  have h1 := (kol_none_preserved r h).1
  have h2 := (kol_none_preserved (kgStep r) h1).2.1
  exact (kol_none_preserved (tonneConvertStep (kgStep r)) h2).2.2

/-- A canonical unit name surviving the unit-duplication step was already
there before it. -/
theorem unitDuplication_edizm_backward (r : MRow) (s : String)
    (h : (unitDuplication r).EDIZM = some s) : r.EDIZM = some s := by
  unfold unitDuplication at h
  rcases tonneRemoveStep_cases (tonneConvertStep (kgStep r)) with h3 | h3
  · rw [h3.1] at h
    exact Option.noConfusion h
  · rw [h3] at h
    rcases tonneConvertStep_cases (kgStep r) with h2 | h2
    · rw [h2.1] at h
      exact Option.noConfusion h
    · rw [h2] at h
      rcases kgStep_cases r with h1 | h1
      · rw [h1.1] at h
        exact Option.noConfusion h
      · rw [h1] at h
        exact h

/-- C4: in the unit-duplication step, a row with canonical unit kilogram
(`EDIZM_ISO = '166'`) has `KOL` and both unit fields nulled; a row with
canonical unit tonne (`EDIZM_ISO = '168'`) and `KOL` present gets
`NETTO := KOL * 1000` with the supplementary fields nulled when `NETTO` is
missing or zero, and just the supplementary fields nulled when `NETTO` is
populated and nonzero (no other field changes); hence no row of the merged
output has a non-null `KOL` with canonical unit kilogram. -/
theorem c4_kg_tonne_duplication_policy :
    (∀ r : MRow, r.EDIZM_ISO = some "166" →
      (unitDuplication r).KOL = none ∧ (unitDuplication r).EDIZM = none ∧
        (unitDuplication r).EDIZM_ISO = none) ∧
    (∀ (r : MRow) (k : ℚ), r.EDIZM_ISO = some "168" → r.KOL = some k →
      ((r.NETTO = none ∨ r.NETTO = some 0) →
        unitDuplication r =
          { r with NETTO := some (k * 1000), KOL := none, EDIZM := none,
                   EDIZM_ISO := none }) ∧
      (∀ n : ℚ, r.NETTO = some n → n ≠ 0 →
        unitDuplication r = { r with KOL := none, EDIZM := none, EDIZM_ISO := none })) ∧
    (∀ (nat : List (String × List MRow)) (ctSrc : List CtRow) (pm : List (ℕ × String))
        (excl : List String) (inc : Bool),
      ∀ r' ∈ merge_processed_main nat ctSrc pm excl inc,
        ¬(r'.KOL ≠ none ∧ r'.EDIZM_ISO = some "166")) := by
  refine ⟨?_, ?_, ?_⟩
  · intro r h
    exact unitDuplication_kg r h
  · intro r k hiso hkol
    exact unitDuplication_tonne r k hiso hkol
  · intro nat ctSrc pm excl inc r' hr'
    simp only [merge_processed_main, List.mem_map] at hr'
    obtain ⟨r0, -, hr0⟩ := hr'
    rintro ⟨-, hiso⟩
    rw [← hr0] at hiso
    exact unitDuplication_iso_ne_kg (bqStep r0) hiso

/-- Witness for `c4_kg_tonne_duplication_policy` at concrete kilogram and
tonne rows. -/
theorem c4_kg_tonne_duplication_policy_witness :
    ((unitDuplication c4kgRow).KOL = none ∧ (unitDuplication c4kgRow).EDIZM = none ∧
      (unitDuplication c4kgRow).EDIZM_ISO = none) ∧
    unitDuplication c4tonneA =
      { c4tonneA with NETTO := some (7 * 1000), KOL := none, EDIZM := none,
                      EDIZM_ISO := none } ∧
    unitDuplication c4tonneB =
      { c4tonneB with KOL := none, EDIZM := none, EDIZM_ISO := none } :=
  ⟨c4_kg_tonne_duplication_policy.1 c4kgRow rfl,
   (c4_kg_tonne_duplication_policy.2.1 c4tonneA 7 rfl rfl).1 (Or.inl rfl),
   (c4_kg_tonne_duplication_policy.2.1 c4tonneB 7 rfl rfl).2 3 rfl (by norm_num)⟩

/-- C10: a row whose canonical unit name is `БЕККЕРЕЛЬ` has its `KOL` nulled
by the Becquerel rule, and after the whole unit-standardization tail (and in
the merged output) no row carries a non-null `KOL` with canonical unit name
`БЕККЕРЕЛЬ`. -/
theorem c10_becquerel_kol_nullified :
    (∀ r : MRow, r.EDIZM = some "БЕККЕРЕЛЬ" → (unitStandardize r).KOL = none) ∧
    (∀ df : List MRow, ∀ r' ∈ df.map unitStandardize,
      ¬(r'.EDIZM = some "БЕККЕРЕЛЬ" ∧ r'.KOL ≠ none)) ∧
    (∀ (nat : List (String × List MRow)) (ctSrc : List CtRow) (pm : List (ℕ × String))
        (excl : List String) (inc : Bool),
      ∀ r' ∈ merge_processed_main nat ctSrc pm excl inc,
        ¬(r'.EDIZM = some "БЕККЕРЕЛЬ" ∧ r'.KOL ≠ none)) := by
  have hbase : ∀ r : MRow, r.EDIZM = some "БЕККЕРЕЛЬ" → (unitStandardize r).KOL = none := by
    intro r h
    unfold unitStandardize
    apply unitDuplication_kol_none
    unfold bqStep
    rw [if_pos h]
  have hrow : ∀ r : MRow,
      ¬((unitStandardize r).EDIZM = some "БЕККЕРЕЛЬ" ∧ (unitStandardize r).KOL ≠ none) := by
    rintro r ⟨hEd, hK⟩
    have hEd0 : (bqStep r).EDIZM = some "БЕККЕРЕЛЬ" :=
      unitDuplication_edizm_backward (bqStep r) _ hEd
    have hEd1 : r.EDIZM = some "БЕККЕРЕЛЬ" := by
      rw [← (bqStep_edizm r).1]
      exact hEd0
    exact hK (hbase r hEd1)
  refine ⟨hbase, ?_, ?_⟩
  · intro df r' hr'
    obtain ⟨r0, -, hr0⟩ := List.mem_map.mp hr'
    rw [← hr0]
    exact hrow r0
  · intro nat ctSrc pm excl inc r' hr'
    simp only [merge_processed_main, List.mem_map] at hr'
    obtain ⟨r0, -, hr0⟩ := hr'
    rw [← hr0]
    exact hrow r0

/-- Witness for `c10_becquerel_kol_nullified` at a concrete Becquerel row. -/
theorem c10_becquerel_kol_nullified_witness :
    unitStandardize c10bqRow ∈ [c10bqRow].map unitStandardize ∧
      ¬((unitStandardize c10bqRow).EDIZM = some "БЕККЕРЕЛЬ" ∧
        (unitStandardize c10bqRow).KOL ≠ none) :=
  ⟨List.mem_map_of_mem _ (List.mem_singleton_self c10bqRow),
   c10_becquerel_kol_nullified.2.1 [c10bqRow] _
     (List.mem_map_of_mem _ (List.mem_singleton_self c10bqRow))⟩

/-- An entry surviving the scan has a key not in the already-seen set. -/
theorem dropDupKeep1_not_seen (l : List TnvedRef) (seen : List (String × ℕ))
    (e : TnvedRef) (h : e ∈ dropDupKeep1 l seen) : refKey e ∉ seen := by
  induction l generalizing seen with
  | nil => exact absurd h (List.not_mem_nil e)
  | cons a t ih =>
    unfold dropDupKeep1 at h
    by_cases ha : refKey a ∈ seen
    · rw [if_pos ha] at h
      exact ih seen h
    · rw [if_neg ha] at h
      rcases List.mem_cons.mp h with h | h
      · rw [h]
        exact ha
      · intro hmem
        exact ih (refKey a :: seen) h (List.mem_cons_of_mem _ hmem)

/-- The scan keeps only entries of its input. -/
theorem dropDupKeep1_sub (l : List TnvedRef) (seen : List (String × ℕ))
    (e : TnvedRef) (h : e ∈ dropDupKeep1 l seen) : e ∈ l := by
  induction l generalizing seen with
  | nil => exact absurd h (List.not_mem_nil e)
  | cons a t ih =>
    unfold dropDupKeep1 at h
    by_cases ha : refKey a ∈ seen
    · rw [if_pos ha] at h
      exact List.mem_cons_of_mem a (ih seen h)
    · rw [if_neg ha] at h
      rcases List.mem_cons.mp h with h | h
      · rw [h]
        exact List.mem_cons_self a t
      · exact List.mem_cons_of_mem a (ih _ h)

/-- The kept entries have pairwise distinct keys. -/
theorem dropDupKeep1_keys_nodup (l : List TnvedRef) (seen : List (String × ℕ)) :
    ((dropDupKeep1 l seen).map refKey).Nodup := by
  induction l generalizing seen with
  | nil => exact List.nodup_nil
  | cons a t ih =>
    unfold dropDupKeep1
    by_cases ha : refKey a ∈ seen
    · rw [if_pos ha]
      exact ih seen
    · rw [if_neg ha]
      rw [List.map_cons, List.nodup_cons]
      refine ⟨?_, ih (refKey a :: seen)⟩
      intro hmem
      obtain ⟨e, he, hke⟩ := List.mem_map.mp hmem
      have := dropDupKeep1_not_seen t (refKey a :: seen) e he
      exact this (by rw [hke]; exact List.mem_cons_self _ _)

/-- The first entry of the input carrying a fresh key is kept by the scan. -/
theorem dropDupKeep1_keeps_first (l : List TnvedRef) (seen : List (String × ℕ))
    (k : String × ℕ) (hk : k ∉ seen) (e : TnvedRef)
    (hf : l.find? (fun x => decide (refKey x = k)) = some e) :
    e ∈ dropDupKeep1 l seen := by
  induction l generalizing seen with
  | nil => exact absurd hf (by simp)
  | cons a t ih =>
    unfold dropDupKeep1
    by_cases hak : refKey a = k
    · have : a = e := by
        rw [List.find?_cons_of_pos t (by simp [hak])] at hf
        exact Option.some.inj hf
      rw [if_neg (by rw [hak]; exact hk), this]
      exact List.mem_cons_self e _
    · rw [List.find?_cons_of_neg t (by simp [hak])] at hf
      by_cases ha : refKey a ∈ seen
      · rw [if_pos ha]
        exact ih seen hk hf
      · rw [if_neg ha]
        refine List.mem_cons_of_mem a (ih (refKey a :: seen) ?_ hf)
        intro hmem
        rcases List.mem_cons.mp hmem with h | h
        · exact hak h.symm
        · exact hk h

/-- With an official entry present for a key, the first entry of the sorted
list carrying the key is official. -/
theorem sorted_first_is_official (l : List TnvedRef) (k : String × ℕ)
    (ho : ∃ o ∈ l, refKey o = k ∧ o.translated = false) :
    ∃ e, (sortByTranslated l).find? (fun x => decide (refKey x = k)) = some e ∧
      e.translated = false := by
  obtain ⟨o, hol, hok, hot⟩ := ho
  have hoF : o ∈ l.filter (fun e => !e.translated) :=
    List.mem_filter.mpr ⟨hol, by rw [hot]; rfl⟩
  have hsome : ((l.filter (fun e => !e.translated)).find?
      (fun x => decide (refKey x = k))).isSome := by
    rw [List.find?_isSome]
    exact ⟨o, hoF, by simp [hok]⟩
  obtain ⟨e, he⟩ := Option.isSome_iff_exists.mp hsome
  refine ⟨e, ?_, ?_⟩
  · unfold sortByTranslated
    rw [List.find?_append, he]
    rfl
  · have : e ∈ l.filter (fun e => !e.translated) := List.mem_of_find?_eq_some he
    have := (List.mem_filter.mp this).2
    simpa using this

/-- C9: the built TNVED reference table has at most one entry per
`(code, level)` key; every key of the input survives; and whenever an
official (`translated = false`) entry exists for a key, the retained entry
for that key is official. -/
theorem c9_reference_official_wins :
    (∀ l : List TnvedRef, ((buildTnvedReference l).map refKey).Nodup) ∧
    (∀ (l : List TnvedRef) (k : String × ℕ), (∃ e ∈ l, refKey e = k) →
      ∃ e' ∈ buildTnvedReference l, refKey e' = k) ∧
    (∀ (l : List TnvedRef) (k : String × ℕ),
      (∃ o ∈ l, refKey o = k ∧ o.translated = false) →
      ∀ e' ∈ buildTnvedReference l, refKey e' = k → e'.translated = false) := by
  have hmemsort : ∀ (l : List TnvedRef) (e : TnvedRef),
      e ∈ l → e ∈ sortByTranslated l := by
    intro l e he
    unfold sortByTranslated
    rw [List.mem_append]
    cases ht : e.translated
    · exact Or.inl (List.mem_filter.mpr ⟨he, by rw [ht]; rfl⟩)
    · exact Or.inr (List.mem_filter.mpr ⟨he, ht⟩)
  refine ⟨?_, ?_, ?_⟩
  · intro l
    exact dropDupKeep1_keys_nodup (sortByTranslated l) []
  · intro l k ⟨e, hel, hek⟩
    have hsome : ((sortByTranslated l).find? (fun x => decide (refKey x = k))).isSome := by
      rw [List.find?_isSome]
      exact ⟨e, hmemsort l e hel, by simp [hek]⟩
    obtain ⟨e0, he0⟩ := Option.isSome_iff_exists.mp hsome
    refine ⟨e0, dropDupKeep1_keeps_first _ [] k (List.not_mem_nil k) e0 he0, ?_⟩
    have := List.find?_some he0
    simpa using this
  · intro l k ho e' he' hk'
    obtain ⟨f, hf, hft⟩ := sorted_first_is_official l k ho
    have hfmem : f ∈ buildTnvedReference l :=
      dropDupKeep1_keeps_first _ [] k (List.not_mem_nil k) f hf
    have hfk : refKey f = k := by
      have := List.find?_some hf
      simpa using this
    have hinj := List.inj_on_of_nodup_map (dropDupKeep1_keys_nodup (sortByTranslated l) [])
    have : e' = f := hinj he' hfmem (by rw [hk', hfk])
    rw [this]
    exact hft

/-- Witness for `c9_reference_official_wins` at a concrete pair of an
official and a machine-translated entry with the same key. -/
theorem c9_reference_official_wins_witness :
    (⟨"87", 2, "СРЕДСТВА НАЗЕМНОГО ТРАНСПОРТА", false⟩ : TnvedRef) ∈
        buildTnvedReference c9entries ∧
      (⟨"87", 2, "СРЕДСТВА НАЗЕМНОГО ТРАНСПОРТА", false⟩ : TnvedRef).translated = false :=
  ⟨by decide,
   c9_reference_official_wins.2.2 c9entries ("87", 2) (by decide) _ (by decide) (by decide)⟩

/-- The Becquerel rule keeps `STRANA` and `SOURCE`. -/
theorem bqStep_keeps (r : MRow) :
    (bqStep r).STRANA = r.STRANA ∧ (bqStep r).SOURCE = r.SOURCE := by
  unfold bqStep
  split <;> exact ⟨rfl, rfl⟩

/-- The kilogram rule keeps `STRANA` and `SOURCE`. -/
theorem kgStep_keeps (r : MRow) :
    (kgStep r).STRANA = r.STRANA ∧ (kgStep r).SOURCE = r.SOURCE := by
  unfold kgStep
  split <;> exact ⟨rfl, rfl⟩

/-- Tonne case 1 keeps `STRANA` and `SOURCE`. -/
theorem tonneConvertStep_keeps (r : MRow) :
    (tonneConvertStep r).STRANA = r.STRANA ∧ (tonneConvertStep r).SOURCE = r.SOURCE := by
  unfold tonneConvertStep
  split <;> exact ⟨rfl, rfl⟩

/-- Tonne case 2 keeps `STRANA` and `SOURCE`. -/
theorem tonneRemoveStep_keeps (r : MRow) :
    (tonneRemoveStep r).STRANA = r.STRANA ∧ (tonneRemoveStep r).SOURCE = r.SOURCE := by
  unfold tonneRemoveStep
  split <;> exact ⟨rfl, rfl⟩

/-- Unit standardization keeps `STRANA` and `SOURCE`. -/
theorem unitStandardize_keeps (r : MRow) :
    (unitStandardize r).STRANA = r.STRANA ∧ (unitStandardize r).SOURCE = r.SOURCE := by
  unfold unitStandardize unitDuplication
  constructor
  · rw [(tonneRemoveStep_keeps _).1, (tonneConvertStep_keeps _).1, (kgStep_keeps _).1,
      (bqStep_keeps _).1]
  · rw [(tonneRemoveStep_keeps _).2, (tonneConvertStep_keeps _).2, (kgStep_keeps _).2,
      (bqStep_keeps _).2]

/-- Every row of the merge output comes from a row that passed the final
exclusion filter, and is either nationally sourced or passed the defensive
national-country filter of the Comtrade branch. -/
theorem merge_row_decomp (nat : List (String × List MRow)) (ctSrc : List CtRow)
    (pm : List (ℕ × String)) (excludeArg : List String) (inc : Bool) :
    ∀ r' ∈ merge_processed_main nat ctSrc pm excludeArg inc,
      ∃ r0, r' = unitStandardize r0 ∧
        stranaIn r0 (excludeArg.map pyUpper) = false ∧
        (r0.SOURCE = "national" ∨
          stranaIn r0 (natCountriesOf nat excludeArg) = false) := by
  intro r' hr'
  simp only [merge_processed_main] at hr'
  obtain ⟨r0, hr0, hst⟩ := List.mem_map.mp hr'
  have h1 := (List.mem_filter.mp hr0).1
  have h2 := (List.mergeSort_perm _ _).mem_iff.mp h1
  refine ⟨r0, hst.symm, ?_, ?_⟩
  · have h3 := (List.mem_filter.mp h2).2
    simpa using h3
  · have h4 := (List.mem_filter.mp h2).1
    rcases List.mem_append.mp h4 with h5 | h5
    · left
      obtain ⟨df, hdf, hr0df⟩ := List.mem_flatten.mp h5
      obtain ⟨p, hp, hpd⟩ := List.mem_map.mp hdf
      rw [← hpd] at hr0df
      obtain ⟨r1, hr1, hr1e⟩ := List.mem_map.mp hr0df
      rw [← hr1e]
    · right
      cases inc with
      | false => simp at h5
      | true =>
        simp only [if_pos] at h5
        obtain ⟨r1, hr1, hr1e⟩ := List.mem_map.mp h5
        have hpred := (List.mem_filter.mp hr1).2
        rw [← hr1e]
        simpa using hpred

/-- C7: for every merge run, every entity code of the exclusion list is
absent from the merged output (rows are compared on the uppercased code),
regardless of whether the Comtrade fallback is included; and every
Comtrade-sourced output row belongs to no nationally covered entity —
the defensive post-filter removes national countries from the fallback
even when the query-level M49 exclusion missed them. -/
theorem c7_merge_excludes_entities (nat : List (String × List MRow)) (ctSrc : List CtRow)
    (pm : List (ℕ × String)) (excludeArg : List String) (inc : Bool) :
    (∀ E ∈ excludeArg, ∀ r' ∈ merge_processed_main nat ctSrc pm excludeArg inc,
      r'.STRANA ≠ some (pyUpper E)) ∧
    (∀ r' ∈ merge_processed_main nat ctSrc pm excludeArg inc, r'.SOURCE = "comtrade" →
      ∀ c ∈ natCountriesOf nat excludeArg, r'.STRANA ≠ some c) := by
  refine ⟨?_, ?_⟩
  · intro E hE r' hr'
    obtain ⟨r0, hr0eq, hexc, -⟩ := merge_row_decomp nat ctSrc pm excludeArg inc r' hr'
    rw [hr0eq, (unitStandardize_keeps r0).1]
    intro heq
    unfold stranaIn at hexc
    rw [heq] at hexc
    simp only [decide_eq_false_iff_not] at hexc
    exact hexc (List.mem_map_of_mem _ hE)
  · intro r' hr' hsrc c hc
    obtain ⟨r0, hr0eq, -, hdisj⟩ := merge_row_decomp nat ctSrc pm excludeArg inc r' hr'
    rw [hr0eq, (unitStandardize_keeps r0).2] at hsrc
    rcases hdisj with h | h
    · rw [hsrc] at h
      exact absurd h (by decide)
    · rw [hr0eq, (unitStandardize_keeps r0).1]
      intro heq
      unfold stranaIn at h
      rw [heq] at h
      simp only [decide_eq_false_iff_not] at h
      exact h hc

/-- Witness for `c7_merge_excludes_entities` at a concrete run: one Russian
national file, a Chinese Comtrade source, and `"cn"` excluded. -/
theorem c7_merge_excludes_entities_witness :
    "cn" ∈ ["cn"] ∧
      unitStandardize { c7natRow with STRANA := some "RU", SOURCE := "national" } ∈
        merge_processed_main c7nat c7ct c7pm ["cn"] true ∧
      (unitStandardize { c7natRow with STRANA := some "RU", SOURCE := "national" }).STRANA
        ≠ some (pyUpper "cn") := by
  have hmem : unitStandardize { c7natRow with STRANA := some "RU", SOURCE := "national" } ∈
      merge_processed_main c7nat c7ct c7pm ["cn"] true := by
    have hout : merge_processed_main c7nat c7ct c7pm ["cn"] true =
        [unitStandardize { c7natRow with STRANA := some "RU", SOURCE := "national" }] := by
      simp [merge_processed_main, natDataOf, natCountriesOf, collectCountries,
        load_and_transform_comtrade, countryToM49, dictLookup, toMRow, stranaIn,
        c7nat, c7ct, c7pm, c7natRow, rowLe, List.mergeSort_singleton,
        show pyUpper "ru" = "RU" from by decide, show pyUpper "cn" = "CN" from by decide,
        show pyUpper "RU" = "RU" from by decide, show pyUpper "CN" = "CN" from by decide]
    rw [hout]
    exact List.mem_singleton_self _
  exact ⟨List.mem_singleton_self "cn", hmem,
    (c7_merge_excludes_entities c7nat c7ct c7pm ["cn"] true).1 "cn"
      (List.mem_singleton_self "cn") _ hmem⟩
